import Mathlib

/-!
Shallow embedding of `bulk_downloader.py` (class `BulkDownloader`).

The mutable parts of the program (the local filesystem, the running byte
counter, the success and failure lists) are modelled as an explicit state
`DState`; the network is modelled as an environment `Env` mapping each URL
to the outcome of the HEAD request and of the body GET, and the MD5 digest
is an abstract function from file bytes to hex strings.  Every per-file
`except (requests.RequestException, ValueError)` handler of the source is
embedded by construction: `download_file` totalises the exceptional paths
into the failure-list append that the handler performs.
-/

namespace BulkDL

set_option autoImplicit false

/-- File contents, one `Nat` per byte. -/
abbrev Bytes := List Nat

/-- Open mode of the local file: `'ab'` (append) or `'wb'` (truncate/create). -/
inductive Mode where
  | append
  | truncate
deriving DecidableEq, Repr

/-- A response to the streaming body GET (`requests.get(..., stream=True)`).
`status` is the HTTP status code, `contentLength` the parsed
`Content-Length` header (`none` when the header is absent, which the source
turns into `0` via `headers.get('Content-Length', 0)`), `chunks` the byte
chunks yielded by `iter_content`, and `streamError` records a transport
error raised by `iter_content` after the listed chunks were delivered. -/
structure GetResponse where
  status : Nat
  contentLength : Option Nat
  chunks : List Bytes
  streamError : Bool

/-- The network and hashing environment of one run.  `head url` is the
`Content-Length` header of the HEAD response (or a transport error), `get
url range` the body GET response for the given `Range: bytes=S-` offset (or
a transport error), and `md5` the hex digest function `calculate_md5`
computes (abstract: the claims never depend on concrete MD5 values). -/
structure Env where
  head : String → Except Unit (Option Nat)
  get : String → Option Nat → Except Unit GetResponse
  md5 : Bytes → String

/-- The mutable state of a `BulkDownloader` instance: the working-directory
filesystem (an association list from filename to contents) together with
the fields `total_bytes`, `success` and `failed`. -/
structure DState where
  fs : List (String × Bytes)
  total_bytes : Nat
  success : List String
  failed : List String
deriving Repr

/-- Look a filename up in the filesystem (`os.path.exists` /
reading the file). -/
def fsLookup (fs : List (String × Bytes)) (name : String) : Option Bytes :=
  match fs with
  | [] => none
  | (n, c) :: rest => if n = name then some c else fsLookup rest name

/-- Replace (or create) a file's contents in the filesystem. -/
def fsWrite (fs : List (String × Bytes)) (name : String) (content : Bytes) :
    List (String × Bytes) :=
  match fs with
  | [] => [(name, content)]
  | (n, c) :: rest =>
      if n = name then (name, content) :: rest
      else (n, c) :: fsWrite rest name content

/-- Characters strictly before the first occurrence of `c` (the whole list
when `c` does not occur). -/
def beforeChar (c : Char) : List Char → List Char
  | [] => []
  | x :: xs => if x = c then [] else x :: beforeChar c xs

/-- Characters after the scheme marker `://`, or `none` when the URL has
no such marker. -/
def afterSchemeMarker : List Char → Option (List Char)
  | ':' :: '/' :: '/' :: rest => some rest
  | _ :: xs => afterSchemeMarker xs
  | [] => none

/-- The suffix starting at the first `/` (empty when there is none). -/
def fromFirstSlash : List Char → List Char
  | [] => []
  | x :: xs => if x = '/' then x :: xs else fromFirstSlash xs

/-- The suffix after the last occurrence of `c` (the whole list when `c`
does not occur). -/
def afterLastChar (c : Char) (l : List Char) : List Char :=
  l.foldl (fun acc x => if x = c then [] else acc ++ [x]) []

/-- The `path` component of `urlparse(url)`: the fragment (after `#`) and
the query (after `?`) are cut off, and for a URL with a `scheme://netloc`
part the path starts at the first `/` after the authority. -/
def urlPath (url : String) : String :=
  let noFrag := beforeChar '#' url.data
  let noQuery := beforeChar '?' noFrag
  match afterSchemeMarker noQuery with
  | none => String.mk noQuery
  | some rest => String.mk (fromFirstSlash rest)

/-- `os.path.basename`: the part of a path after its last `/`. -/
def basename (p : String) : String :=
  String.mk (afterLastChar '/' p.data)

/-- Line 103: `local_filename = os.path.basename(urlparse(url).path)`. -/
def local_filename (url : String) : String :=
  basename (urlPath url)

/-- Lines 96–100, `verify_file_integrity`: a no-op unless `expected_md5` is
a truthy (non-`None`, non-empty) string; on a digest mismatch it raises a
`ValueError` carrying the expected and the actual digest. -/
def verify_file_integrity (md5 : Bytes → String) (content : Bytes)
    (expected_md5 : Option String) : Except (String × String) Unit :=
  match expected_md5 with
  | none => .ok ()
  | some e =>
      if e = "" then .ok ()
      else
        let actual := md5 content
        if actual ≠ e then .error (e, actual) else .ok ()

/-- The bytes the chunk loop of lines 131–134 writes to the file handle:
each chunk yielded by `iter_content` is appended unless it is falsy
(empty). -/
def writtenBody (chunks : List Bytes) : Bytes :=
  chunks.foldl (fun acc c => if c.isEmpty then acc else acc ++ c) []

/-- Line 126: expected total size = parsed `Content-Length` of this GET
(0 when absent) + bytes already local before this GET. -/
def expectedTotal (resp : GetResponse) (local_size : Nat) : Nat :=
  resp.contentLength.getD 0 + local_size

/-- Observable per-file events, used to state which requests were issued
and how the local file was opened. -/
structure Events where
  headIssued : Bool
  getIssued : Bool
  rangeHeader : Option Nat
  mode : Option Mode
deriving DecidableEq, Repr

/-- Lines 124–148 of `download_file`: the body GET and everything after
it.  `content` is the current contents of the local file (`[]` when the
file does not exist), so `content.length` is `local_size`; `range` is the
`Range: bytes=S-` offset carried in the request headers, if any.
Exceptional exits (transport error, `raise_for_status`, the two size
checks, the integrity check) land in the `except` handler of lines
150–152, which appends the original `url` to `failed`. -/
def doGet (env : Env) (st : DState) (url name : String) (content : Bytes)
    (range : Option Nat) (expected_md5 : Option String) (headIssued : Bool) :
    DState × Events :=
  let local_size := content.length
  match env.get url range with
  | .error _ =>
      ({ st with failed := st.failed ++ [url] },
       { headIssued, getIssued := true, rangeHeader := range, mode := none })
  | .ok resp =>
      if 400 ≤ resp.status ∧ resp.status < 600 then
        ({ st with failed := st.failed ++ [url] },
         { headIssued, getIssued := true, rangeHeader := range, mode := none })
      else
        let total_size := expectedTotal resp local_size
        let m : Mode := if 0 < local_size then .append else .truncate
        let body := writtenBody resp.chunks
        let downloaded_size := local_size + body.length
        let newContent := (match m with | .append => content | .truncate => []) ++ body
        let fs' := fsWrite st.fs name newContent
        let ev : Events :=
          { headIssued, getIssued := true, rangeHeader := range, mode := some m }
        if resp.streamError then
          ({ st with fs := fs', failed := st.failed ++ [url] }, ev)
        else if downloaded_size ≠ total_size then
          ({ st with fs := fs', failed := st.failed ++ [url] }, ev)
        else
          let file_size := ((fsLookup fs' name).getD []).length
          if file_size ≠ total_size then
            ({ st with fs := fs', failed := st.failed ++ [url] }, ev)
          else
            match verify_file_integrity env.md5 ((fsLookup fs' name).getD [])
                expected_md5 with
            | .error _ => ({ st with fs := fs', failed := st.failed ++ [url] }, ev)
            | .ok _ =>
                ({ st with fs := fs',
                           total_bytes := st.total_bytes + file_size,
                           success := st.success ++ [name] }, ev)

/-- Lines 102–152, `download_file(url, expected_md5)`.  When the local file
exists, a HEAD request learns the remote total; a local size equal to that
total skips the body transfer (lines 111–116); otherwise a `Range` header
from the current local size is prepared (line 118) and the body GET of
`doGet` runs.  When the local file does not exist, the body GET runs with
`local_size = 0` and no `Range` header. -/
def download_file (env : Env) (st : DState) (url : String)
    (expected_md5 : Option String) : DState × Events :=
  let name := local_filename url
  match fsLookup st.fs name with
  | some content =>
      match env.head url with
      | .error _ =>
          ({ st with failed := st.failed ++ [url] },
           { headIssued := true, getIssued := false, rangeHeader := none,
             mode := none })
      | .ok hdr =>
          let local_size := content.length
          let total_size := hdr.getD 0
          if local_size = total_size then
            match verify_file_integrity env.md5 content expected_md5 with
            | .ok _ =>
                ({ st with success := st.success ++ [name],
                           total_bytes := st.total_bytes + local_size },
                 { headIssued := true, getIssued := false, rangeHeader := none,
                   mode := none })
            | .error _ =>
                ({ st with failed := st.failed ++ [url] },
                 { headIssued := true, getIssued := false, rangeHeader := none,
                   mode := none })
          else
            doGet env st url name content (some local_size) expected_md5 true
  | none =>
      doGet env st url name [] none expected_md5 false

/-- Lines 159–167, `download_files`: each URL in input order is passed to
`download_file` with `expected_md5 = None` (line 164); the state threads
through sequentially. -/
def download_files (env : Env) (st : DState) (urls : List String) : DState :=
  match urls with
  | [] => st
  | url :: rest => download_files env (download_file env st url none).1 rest

/-- Lines 154–157, `show_progress`: the percentage is
`(downloaded / total) * 100 if total else 0`. -/
def show_progress (downloaded total : Nat) : ℚ :=
  if total ≠ 0 then ((downloaded : ℚ) / (total : ℚ)) * 100 else 0

/-- Outcome of the authentication entry sequence: whether the interactive
renewal (`get_new_cookie`) prompted for credentials, and whether the
process exited via `sys.exit(1)`. -/
structure AuthResult where
  prompted : Bool
  exited : Bool
deriving DecidableEq, Repr

/-- Lines 73–87, `get_new_cookie`: always prompts for username and
password; a 200 on the authorize endpoint saves the cookie jar, any other
status exits the process with status 1. -/
def get_new_cookie (renewStatus : Nat) : AuthResult :=
  if renewStatus = 200 then { prompted := true, exited := false }
  else { prompted := true, exited := true }

/-- Lines 58–71, `check_or_get_cookie`: a GET to the profile endpoint;
on status 200 the method returns at once, on any other status — and on a
`requests.RequestException`, which the `except` clause swallows — it falls
through to `get_new_cookie`. -/
def check_or_get_cookie (validation : Except Unit Nat) (renewStatus : Nat) :
    AuthResult :=
  match validation with
  | .ok status =>
      if status = 200 then { prompted := false, exited := false }
      else get_new_cookie renewStatus
  | .error _ => get_new_cookie renewStatus


/-- Empty starting state: empty working directory, zero counters, empty
lists. -/
def st0 : DState := { fs := [], total_bytes := 0, success := [], failed := [] }

/-- Environment for the list-disjointness counterexample.  The well-formed
URL serves a 3-byte body; for the schemeless URL `"x.zip"` every request
raises (as `requests` raises `MissingSchema`, a `RequestException`). -/
def envC1 : Env where
  head u := if u = "x.zip" then .error () else .ok (some 3)
  get u _ :=
    if u = "https://h/x.zip" then
      .ok { status := 200, contentLength := some 3, chunks := [[1, 2, 3]],
            streamError := false }
    else .error ()
  md5 _ := ""

/-- State with an existing zero-byte partial file `x.zip`. -/
def stC2 : DState := { fs := [("x.zip", [])], total_bytes := 0, success := [], failed := [] }

/-- Environment for the open-mode counterexample: the remote total is 5
bytes and the GET serves all five. -/
def envC2 : Env where
  head _ := .ok (some 5)
  get _ _ := .ok { status := 200, contentLength := some 5,
                   chunks := [[1, 2, 3, 4, 5]], streamError := false }
  md5 _ := ""

/-- State with an existing 2-byte partial file `x.zip`. -/
def stW2 : DState := { fs := [("x.zip", [7, 7])], total_bytes := 0, success := [], failed := [] }

/-- The ranged GET response of the resume witness: 200, Content-Length 3,
a single 3-byte chunk. -/
def respW2 : GetResponse :=
  { status := 200, contentLength := some 3, chunks := [[1, 2, 3]],
    streamError := false }

/-- Environment for the resume witness: remote total 5, and the ranged GET
serves the remaining 3 bytes. -/
def envW2 : Env where
  head _ := .ok (some 5)
  get _ _ := .ok respW2
  md5 _ := ""

/-- State with a complete 3-byte local file `x.zip`. -/
def stW3 : DState := { fs := [("x.zip", [1, 2, 3])], total_bytes := 0, success := [], failed := [] }

/-- Environment for the already-complete witness: the HEAD request reports
total 3, and any body GET would fail. -/
def envW3 : Env where
  head _ := .ok (some 3)
  get _ _ := .error ()
  md5 _ := ""

/-- The GET response of the size-mismatch witness: Content-Length announces
5 bytes but the stream delivers only 3. -/
def respW4 : GetResponse :=
  { status := 200, contentLength := some 5, chunks := [[1, 2, 3]],
    streamError := false }

/-- Environment for the size-mismatch witness. -/
def envW4 : Env where
  head _ := .ok none
  get _ _ := .ok respW4
  md5 _ := ""

/-- The GET response of the checksum-mismatch witness: a correctly sized
3-byte body. -/
def respW5 : GetResponse :=
  { status := 200, contentLength := some 3, chunks := [[1, 2, 3]],
    streamError := false }

/-- Environment for the checksum-mismatch witness: every file hashes to
`"aaa"`. -/
def envW5 : Env where
  head _ := .ok none
  get _ _ := .ok respW5
  md5 _ := "aaa"

/-- The GET response of the non-2xx counterexample: a 304 Not Modified. -/
def respC6 : GetResponse :=
  { status := 304, contentLength := some 0, chunks := [], streamError := false }

/-- Environment serving the 304 response for every body GET. -/
def envC6 : Env where
  head _ := .ok none
  get _ _ := .ok respC6
  md5 _ := ""

/-- Environment serving a 404 response for every body GET. -/
def envW6 : Env where
  head _ := .ok none
  get _ _ := .ok { status := 404, contentLength := some 0, chunks := [],
                   streamError := false }
  md5 _ := ""

/-- First URL of the basename-collision pair. -/
def urlA : String := "https://a.com/d1/f.zip"

/-- Second URL of the basename-collision pair: a distinct remote resource
whose final path segment is also `f.zip`. -/
def urlB : String := "https://b.com/d2/f.zip"

/-- Environment for the collision claim: the first URL serves 3 bytes, the
second URL cannot be fetched at all (every GET for it errors), and the HEAD
probe reports total 3 for either URL. -/
def envC10 : Env where
  head _ := .ok (some 3)
  get u _ :=
    if u = urlA then
      .ok { status := 200, contentLength := some 3, chunks := [[10, 20, 30]],
            streamError := false }
    else .error ()
  md5 _ := ""

end BulkDL
namespace BulkDL

theorem fsLookup_fsWrite (fs : List (String × Bytes)) (name : String) (content : Bytes) :
    fsLookup (fsWrite fs name content) name = some content := by
  induction fs with
  | nil => simp [fsWrite, fsLookup]
  | cons p rest ih =>
      obtain ⟨n, c⟩ := p
      by_cases h : n = name
      · simp [fsWrite, fsLookup, h]
      · simp [fsWrite, fsLookup, h, ih]

theorem doGet_shape (env : Env) (st : DState) (url name : String) (content : Bytes)
    (range : Option Nat) (e : Option String) (hI : Bool) :
    ((doGet env st url name content range e hI).1.success = st.success ++ [name] ∧
     (doGet env st url name content range e hI).1.failed = st.failed ∧
     st.total_bytes ≤ (doGet env st url name content range e hI).1.total_bytes) ∨
    ((doGet env st url name content range e hI).1.success = st.success ∧
     (doGet env st url name content range e hI).1.failed = st.failed ++ [url] ∧
     (doGet env st url name content range e hI).1.total_bytes = st.total_bytes) := by
  unfold doGet
  cases hg : env.get url range with
  | error err => right; exact ⟨rfl, rfl, rfl⟩
  | ok resp =>
      simp only []
      repeat' split
      all_goals first
        | (right; exact ⟨rfl, rfl, rfl⟩)
        | (left; exact ⟨rfl, rfl, Nat.le_add_right _ _⟩)

theorem download_file_shape (env : Env) (st : DState) (url : String)
    (e : Option String) :
    ((download_file env st url e).1.success = st.success ++ [local_filename url] ∧
     (download_file env st url e).1.failed = st.failed ∧
     st.total_bytes ≤ (download_file env st url e).1.total_bytes) ∨
    ((download_file env st url e).1.success = st.success ∧
     (download_file env st url e).1.failed = st.failed ++ [url] ∧
     (download_file env st url e).1.total_bytes = st.total_bytes) := by
  unfold download_file
  simp only []
  cases hl : fsLookup st.fs (local_filename url) with
  | none => exact doGet_shape env st url (local_filename url) [] none e false
  | some content =>
      cases hh : env.head url with
      | error err => right; exact ⟨rfl, rfl, rfl⟩
      | ok hdr =>
          simp only []
          repeat' split
          all_goals first
            | (right; exact ⟨rfl, rfl, rfl⟩)
            | (left; exact ⟨rfl, rfl, Nat.le_add_right _ _⟩)
            | (exact doGet_shape env st url (local_filename url) content
                (some content.length) e true)

end BulkDL
namespace BulkDL

/-- Batch run: sum of list lengths grows by one per target and the byte
counter never decreases. -/
theorem download_files_counts (env : Env) (urls : List String) (st : DState) :
    (download_files env st urls).success.length +
        (download_files env st urls).failed.length =
      st.success.length + st.failed.length + urls.length ∧
    st.total_bytes ≤ (download_files env st urls).total_bytes := by
  induction urls generalizing st with
  | nil => exact ⟨by simp [download_files], le_rfl⟩
  | cons u rest ih =>
      have hstep : download_files env st (u :: rest) =
          download_files env (download_file env st u none).1 rest := rfl
      rw [hstep]
      have hshape := download_file_shape env st u none
      have hrest := ih (download_file env st u none).1
      rcases hshape with ⟨hs, hf, ht⟩ | ⟨hs, hf, ht⟩
      · refine ⟨?_, le_trans ht hrest.2⟩
        rw [hrest.1, hs, hf]
        simp only [List.length_append, List.length_cons, List.length_nil]
        omega
      · refine ⟨?_, le_trans (le_of_eq ht.symm) hrest.2⟩
        rw [hrest.1, hs, hf]
        simp only [List.length_append, List.length_cons, List.length_nil]
        omega

/-- Success path of the GET section: when the GET returns a non-error
status, the stream completes, and the delivered body length matches the
Content-Length header, then (modulo the integrity check passing) the file
is rewritten to the old content plus the body, its size is added to the
byte counter and the filename is appended to `success`. -/
theorem doGet_success (env : Env) (st : DState) (url name : String) (content : Bytes)
    (range : Option Nat) (e : Option String) (hI : Bool) (resp : GetResponse)
    (hget : env.get url range = .ok resp)
    (hstatus : ¬ (400 ≤ resp.status ∧ resp.status < 600))
    (hstream : resp.streamError = false)
    (hlen : (writtenBody resp.chunks).length = resp.contentLength.getD 0)
    (hver : verify_file_integrity env.md5 (content ++ writtenBody resp.chunks) e = .ok ()) :
    doGet env st url name content range e hI =
      ({ st with fs := fsWrite st.fs name (content ++ writtenBody resp.chunks),
                 total_bytes := st.total_bytes + (content ++ writtenBody resp.chunks).length,
                 success := st.success ++ [name] },
       { headIssued := hI, getIssued := true, rangeHeader := range,
         mode := some (if 0 < content.length then Mode.append else Mode.truncate) }) := by
  have hnc : (match (if 0 < content.length then Mode.append else Mode.truncate) with
      | Mode.append => content | Mode.truncate => []) ++ writtenBody resp.chunks =
      content ++ writtenBody resp.chunks := by
    by_cases hpos : 0 < content.length
    · simp [hpos]
    · have : content = [] := List.length_eq_zero.mp (Nat.eq_zero_of_not_pos hpos)
      simp [hpos, this]
  have hdl : content.length + (writtenBody resp.chunks).length =
      expectedTotal resp content.length := by
    rw [hlen, expectedTotal, Nat.add_comm]
  unfold doGet
  rw [hget]
  simp only [hstatus, if_false, hstream, Bool.false_eq_true, if_false, hnc]
  rw [if_neg (by rw [hdl]; exact fun h => h rfl)]
  rw [fsLookup_fsWrite]
  simp only [Option.getD_some]
  rw [if_neg (by rw [List.length_append, hdl]; exact fun h => h rfl)]
  rw [hver]

end BulkDL
namespace BulkDL

/-- C1 (as stated, counterexample): downloading `https://h/x.zip`
successfully and then failing on the target `x.zip` (whose HEAD request
raises, as `requests` does for a schemeless URL) leaves the string `x.zip`
in both lists, so the success and failure lists of a run are not always
disjoint. -/
theorem batch_lists_not_always_disjoint :
    (download_files envC1 st0 ["https://h/x.zip", "x.zip"]).success = ["x.zip"] ∧
    (download_files envC1 st0 ["https://h/x.zip", "x.zip"]).failed = ["x.zip"] ∧
    "x.zip" ∈ (download_files envC1 st0 ["https://h/x.zip", "x.zip"]).success ∧
    "x.zip" ∈ (download_files envC1 st0 ["https://h/x.zip", "x.zip"]).failed := by
  refine ⟨rfl, rfl, ?_, ?_⟩ <;> decide

/-- C1 (amended): every target of a batch contributes exactly one entry to
exactly one of the two lists — the filename to `success` or the URL to
`failed`, never both — so the list lengths sum to the number of targets; a
per-file failure never aborts the batch, leaves `total_bytes` unchanged,
and the counter never decreases over a run. -/
theorem batch_one_entry_per_target (env : Env) (st : DState) (urls : List String) :
    ((download_files env st urls).success.length +
        (download_files env st urls).failed.length =
      st.success.length + st.failed.length + urls.length) ∧
    st.total_bytes ≤ (download_files env st urls).total_bytes ∧
    ∀ url e,
      ((download_file env st url e).1.success = st.success ++ [local_filename url] ∧
       (download_file env st url e).1.failed = st.failed) ∨
      ((download_file env st url e).1.success = st.success ∧
       (download_file env st url e).1.failed = st.failed ++ [url] ∧
       (download_file env st url e).1.total_bytes = st.total_bytes) := by
  refine ⟨(download_files_counts env urls st).1, (download_files_counts env urls st).2, ?_⟩
  intro url e
  rcases download_file_shape env st url e with ⟨hs, hf, _⟩ | ⟨hs, hf, ht⟩
  · exact .inl ⟨hs, hf⟩
  · exact .inr ⟨hs, hf, ht⟩

/-- C8: the entry a failing target appends is its original URL and the
entry a succeeding target appends is the derived local filename; when the
URL differs from the derived filename, no run of `download_file` can put
the URL into the success list or the filename into the failure list unless
it was already there. -/
theorem failures_by_url_successes_by_filename (env : Env) (st : DState)
    (url : String) (e : Option String) :
    (((download_file env st url e).1.success = st.success ++ [local_filename url] ∧
      (download_file env st url e).1.failed = st.failed) ∨
     ((download_file env st url e).1.success = st.success ∧
      (download_file env st url e).1.failed = st.failed ++ [url])) ∧
    (url ≠ local_filename url →
      (url ∉ st.success → url ∉ (download_file env st url e).1.success) ∧
      (local_filename url ∉ st.failed →
        local_filename url ∉ (download_file env st url e).1.failed)) := by
  rcases download_file_shape env st url e with ⟨hs, hf, _⟩ | ⟨hs, hf, _⟩
  · refine ⟨.inl ⟨hs, hf⟩, fun hne => ⟨fun hn => ?_, fun hn => ?_⟩⟩
    · rw [hs]
      simp only [List.mem_append, List.mem_singleton]
      rintro (h | h)
      · exact hn h
      · exact hne h
    · rw [hf]; exact hn
  · refine ⟨.inr ⟨hs, hf⟩, fun hne => ⟨fun hn => ?_, fun hn => ?_⟩⟩
    · rw [hs]; exact hn
    · rw [hf]
      simp only [List.mem_append, List.mem_singleton]
      rintro (h | h)
      · exact hn h
      · exact hne h.symm

/-- Witness for the recording asymmetry: for the successful target
`https://h/x.zip` the URL itself never enters the success list and the
derived filename `x.zip` never enters the failure list. -/
theorem failures_by_url_successes_by_filename_witness :
    "https://h/x.zip" ∉ (download_file envC1 st0 "https://h/x.zip" none).1.success ∧
    "x.zip" ∉ (download_file envC1 st0 "https://h/x.zip" none).1.failed := by
  have h := (failures_by_url_successes_by_filename envC1 st0 "https://h/x.zip" none).2
    (by decide)
  exact ⟨h.1 (by decide), h.2 (by decide)⟩

/-- C9: the progress percentage is total-safe — with `total = 0` it is 0%
(no division error can occur), and with a nonzero total it is the ratio of
downloaded to total bytes, as a percentage. -/
theorem show_progress_total_zero_safe (d t : Nat) (ht : t ≠ 0) :
    show_progress d 0 = 0 ∧ show_progress d t = ((d : ℚ) * 100) / (t : ℚ) := by
  constructor
  · simp [show_progress]
  · rw [show_progress, if_pos ht, div_mul_eq_mul_div]

/-- Witness for the progress computation at `downloaded = 3`, `total = 4`. -/
theorem show_progress_total_zero_safe_witness :
    show_progress 3 0 = 0 ∧ show_progress 3 4 = (((3 : Nat) : ℚ) * 100) / ((4 : Nat) : ℚ) :=
  show_progress_total_zero_safe 3 4 (by decide)

/-- C7: credential validation treats exactly HTTP 200 as valid — the
renewal path (and with it any prompt) is skipped iff the validation
response is a 200; any other status, and any transport error, hands
control to `get_new_cookie`, which prompts rather than terminating the
validation step. -/
theorem validation_200_skips_renewal (v : Except Unit Nat) (r : Nat) :
    ((check_or_get_cookie v r).prompted = false ↔ v = .ok 200) ∧
    (v ≠ .ok 200 → check_or_get_cookie v r = get_new_cookie r) ∧
    (get_new_cookie r).prompted = true := by
  refine ⟨?_, ?_, ?_⟩
  · cases v with
    | error u =>
        unfold check_or_get_cookie get_new_cookie
        constructor
        · intro h
          by_cases hr : r = 200 <;> simp [hr] at h
        · intro h; cases h
    | ok s =>
        by_cases hs : s = 200
        · subst hs; simp [check_or_get_cookie]
        · unfold check_or_get_cookie get_new_cookie
          simp only [hs, if_false]
          constructor
          · intro h
            by_cases hr : r = 200 <;> simp [hr] at h
          · intro h
            exact absurd (by injection h) hs
  · intro hv
    cases v with
    | error u => rfl
    | ok s =>
        have hs : s ≠ 200 := fun h => hv (by rw [h])
        unfold check_or_get_cookie
        simp [hs]
  · unfold get_new_cookie
    by_cases hr : r = 200 <;> simp [hr]

/-- Witness for the credential-validation claim: a 200 issues no prompt,
while a 404 validation response leads to the prompting renewal path. -/
theorem validation_200_skips_renewal_witness :
    (check_or_get_cookie (.ok 200) 200).prompted = false ∧
    check_or_get_cookie (.ok 404) 200 = get_new_cookie 200 ∧
    (check_or_get_cookie (.ok 404) 200).prompted = true := by
  refine ⟨?_, ?_, ?_⟩
  · exact (validation_200_skips_renewal (.ok 200) 200).1.mpr rfl
  · exact (validation_200_skips_renewal (.ok 404) 200).2.1 (by simp)
  · rw [(validation_200_skips_renewal (.ok 404) 200).2.1 (by simp)]
    exact (validation_200_skips_renewal (.ok 404) 200).2.2

end BulkDL
namespace BulkDL

/-- C3: a target whose local file already has exactly the size the HEAD
request reports, and whose integrity check passes, is recorded as a
success with its existing size added to the byte counter; no body GET is
issued and the filesystem — in particular the file's content — is
untouched. -/
theorem complete_file_skips_body_get (env : Env) (st : DState) (url : String)
    (e : Option String) (content : Bytes) (T : Nat)
    (hlook : fsLookup st.fs (local_filename url) = some content)
    (hhead : env.head url = .ok (some T))
    (hsize : content.length = T)
    (hver : verify_file_integrity env.md5 content e = .ok ()) :
    download_file env st url e =
      ({ st with success := st.success ++ [local_filename url],
                 total_bytes := st.total_bytes + content.length },
       { headIssued := true, getIssued := false, rangeHeader := none,
         mode := none }) := by
  unfold download_file
  simp only []
  rw [hlook]
  simp only []
  rw [hhead]
  simp only [Option.getD_some]
  rw [if_pos hsize, hver]

/-- Witness for the already-complete claim: with `x.zip` fully on disk (3
bytes, HEAD total 3), the run records a success of 3 bytes and issues no
GET. -/
theorem complete_file_skips_body_get_witness :
    download_file envW3 stW3 "https://h/x.zip" none =
      ({ stW3 with success := stW3.success ++ ["x.zip"],
                   total_bytes := stW3.total_bytes + 3 },
       { headIssued := true, getIssued := false, rangeHeader := none,
         mode := none }) := by
  have h := complete_file_skips_body_get envW3 stW3 "https://h/x.zip" none
    [1, 2, 3] 3 (by decide) rfl (by decide) rfl
  rw [h]
  rfl

/-- C6 (as stated, counterexample): a body GET answered with status 304 —
not in the 2xx range — does not abort the attempt: `raise_for_status`
raises only for 4xx/5xx, so the run opens the local file (mode `wb`),
consumes the (empty) body and records the target as a success, not a
failure. -/
theorem non_2xx_status_not_always_failure :
    envC6.get "https://h/a.zip" none = .ok respC6 ∧
    respC6.status = 304 ∧
    ¬ (200 ≤ respC6.status ∧ respC6.status ≤ 299) ∧
    (download_file envC6 st0 "https://h/a.zip" none).1.failed = [] ∧
    (download_file envC6 st0 "https://h/a.zip" none).1.success = ["a.zip"] ∧
    (download_file envC6 st0 "https://h/a.zip" none).2.mode = some Mode.truncate := by
  exact ⟨rfl, rfl, by decide, rfl, rfl, rfl⟩

/-- C6 (amended): for every body GET whose response status is in the 4xx
or 5xx range — the statuses `raise_for_status` raises for — the attempt
aborts before the local file is opened or any body byte written: the state
changes only by appending the URL to the failure list, and no open mode is
ever chosen. -/
theorem error_status_aborts_before_body (env : Env) (st : DState)
    (url name : String) (content : Bytes) (range : Option Nat)
    (e : Option String) (hI : Bool) (resp : GetResponse)
    (hget : env.get url range = .ok resp)
    (hlo : 400 ≤ resp.status) (hhi : resp.status < 600) :
    doGet env st url name content range e hI =
      ({ st with failed := st.failed ++ [url] },
       { headIssued := hI, getIssued := true, rangeHeader := range,
         mode := none }) := by
  unfold doGet
  rw [hget]
  simp only []
  rw [if_pos ⟨hlo, hhi⟩]

/-- Witness for the amended status claim: a 404 body GET appends the URL
to the failure list, leaves the filesystem untouched and never opens the
file. -/
theorem error_status_aborts_before_body_witness :
    doGet envW6 st0 "https://h/a.zip" "a.zip" [] none none false =
      ({ st0 with failed := st0.failed ++ ["https://h/a.zip"] },
       { headIssued := false, getIssued := true, rangeHeader := none,
         mode := none }) :=
  error_status_aborts_before_body envW6 st0 "https://h/a.zip" "a.zip" [] none
    none false _ rfl (by decide) (by decide)

/-- C10: two distinct URLs that share the final path segment `f.zip`
resolve to the same local file; after the first target downloads 3 bytes,
the second target sees that file as its own complete download (HEAD total
3), issues no body GET, is recorded as a success, and the first target's
bytes are counted again — the second target's own content is never
fetched. -/
theorem shared_basename_second_target_reuses_first :
    urlA ≠ urlB ∧
    local_filename urlA = local_filename urlB ∧
    (download_file envC10
        (download_file envC10 st0 urlA none).1 urlB none).2.getIssued = false ∧
    download_files envC10 st0 [urlA, urlB] =
      { fs := [("f.zip", [10, 20, 30])], total_bytes := 6,
        success := ["f.zip", "f.zip"], failed := [] } := by
  exact ⟨by decide, rfl, rfl, rfl⟩

end BulkDL
namespace BulkDL

/-- Verify-error path of the GET section: like `doGet_success`, but the
integrity check fails, so the URL is appended to `failed` while the
correctly-sized bytes stay on disk. -/
theorem doGet_verify_error (env : Env) (st : DState) (url name : String)
    (content : Bytes) (range : Option Nat) (e : Option String) (hI : Bool)
    (resp : GetResponse) (p : String × String)
    (hget : env.get url range = .ok resp)
    (hstatus : ¬ (400 ≤ resp.status ∧ resp.status < 600))
    (hstream : resp.streamError = false)
    (hlen : (writtenBody resp.chunks).length = resp.contentLength.getD 0)
    (hver : verify_file_integrity env.md5 (content ++ writtenBody resp.chunks) e =
      .error p) :
    doGet env st url name content range e hI =
      ({ st with fs := fsWrite st.fs name (content ++ writtenBody resp.chunks),
                 failed := st.failed ++ [url] },
       { headIssued := hI, getIssued := true, rangeHeader := range,
         mode := some (if 0 < content.length then Mode.append else Mode.truncate) }) := by
  have hnc : (match (if 0 < content.length then Mode.append else Mode.truncate) with
      | Mode.append => content | Mode.truncate => []) ++ writtenBody resp.chunks =
      content ++ writtenBody resp.chunks := by
    by_cases hpos : 0 < content.length
    · simp [hpos]
    · have : content = [] := List.length_eq_zero.mp (Nat.eq_zero_of_not_pos hpos)
      simp [hpos, this]
  have hdl : content.length + (writtenBody resp.chunks).length =
      expectedTotal resp content.length := by
    rw [hlen, expectedTotal, Nat.add_comm]
  unfold doGet
  rw [hget]
  simp only [hstatus, if_false, hstream, Bool.false_eq_true, if_false, hnc]
  rw [if_neg (by rw [hdl]; exact fun h => h rfl)]
  rw [fsLookup_fsWrite]
  simp only [Option.getD_some]
  rw [if_neg (by rw [List.length_append, hdl]; exact fun h => h rfl)]
  rw [hver]

/-- C2 (as stated, counterexample): the local file `x.zip` exists with
size 0 while the remote total is 5, so a resumed GET is issued with
`Range: bytes=0-`; but the file is opened in truncate (`wb`) mode, not
append — `mode = 'ab' if local_size > 0 else 'wb'` picks append only for a
strictly positive local size. -/
theorem resume_of_empty_file_truncates :
    fsLookup stC2.fs "x.zip" = some [] ∧
    envC2.head "https://h/x.zip" = .ok (some 5) ∧
    (download_file envC2 stC2 "https://h/x.zip" none).2.rangeHeader = some 0 ∧
    (download_file envC2 stC2 "https://h/x.zip" none).2.mode = some Mode.truncate ∧
    some Mode.truncate ≠ some Mode.append :=
  ⟨rfl, rfl, rfl, rfl, by decide⟩

/-- C2 (amended): when the local file exists with size `S` different from
the HEAD total `T` and `S > 0`, the body GET carries `Range: bytes=S-` and
the file is opened for append (with `S = 0` the code opens in truncate
mode instead); and when the ranged response carries `Content-Length = T −
S` and delivers exactly that many bytes (with the integrity check
passing), the target succeeds and the resulting on-disk size equals `T`. -/
theorem resume_uses_range_and_append (env : Env) (st : DState) (url : String)
    (e : Option String) (content : Bytes) (T cl : Nat) (resp : GetResponse)
    (hlook : fsLookup st.fs (local_filename url) = some content)
    (hhead : env.head url = .ok (some T))
    (hne : content.length ≠ T)
    (hpos : 0 < content.length)
    (hget : env.get url (some content.length) = .ok resp)
    (hstatus : ¬ (400 ≤ resp.status ∧ resp.status < 600))
    (hstream : resp.streamError = false)
    (hcl : resp.contentLength.getD 0 = cl)
    (hT : content.length + cl = T)
    (hbody : (writtenBody resp.chunks).length = cl)
    (hver : verify_file_integrity env.md5 (content ++ writtenBody resp.chunks) e =
      .ok ()) :
    (download_file env st url e).2.rangeHeader = some content.length ∧
    (download_file env st url e).2.mode = some Mode.append ∧
    (download_file env st url e).1.success = st.success ++ [local_filename url] ∧
    fsLookup (download_file env st url e).1.fs (local_filename url) =
      some (content ++ writtenBody resp.chunks) ∧
    (content ++ writtenBody resp.chunks).length = T := by
  have hred : download_file env st url e =
      doGet env st url (local_filename url) content (some content.length) e true := by
    unfold download_file
    simp only []
    rw [hlook]
    simp only []
    rw [hhead]
    simp only [Option.getD_some]
    rw [if_neg hne]
  have hsucc := doGet_success env st url (local_filename url) content
    (some content.length) e true resp hget hstatus hstream (hbody.trans hcl.symm) hver
  rw [hred, hsucc]
  refine ⟨rfl, ?_, rfl, ?_, ?_⟩
  · simp [hpos]
  · exact fsLookup_fsWrite st.fs (local_filename url) _
  · rw [List.length_append, hbody, hT]

/-- Witness for the resume claim: a 2-byte partial `x.zip` against a
5-byte remote, with the ranged GET delivering the remaining 3 bytes. -/
theorem resume_uses_range_and_append_witness :
    (download_file envW2 stW2 "https://h/x.zip" none).2.rangeHeader = some 2 ∧
    (download_file envW2 stW2 "https://h/x.zip" none).2.mode = some Mode.append ∧
    (download_file envW2 stW2 "https://h/x.zip" none).1.success = [] ++ ["x.zip"] ∧
    fsLookup (download_file envW2 stW2 "https://h/x.zip" none).1.fs "x.zip" =
      some ([7, 7] ++ [1, 2, 3]) ∧
    ([7, 7] ++ ([1, 2, 3] : Bytes)).length = 5 := by
  have h := resume_uses_range_and_append envW2 stW2 "https://h/x.zip" none
    [7, 7] 5 3 respW2 (by decide) rfl (by decide) (by decide) rfl (by decide)
    rfl rfl rfl rfl rfl
  exact h

/-- C4: the expected total of a body GET is the Content-Length of its
response plus the bytes already local before it; if the streamed byte
counter at stream end misses that total the target is failed with nothing
added to the byte counter, and if the size re-read from the filesystem
after the handle closes misses it the target is likewise failed. -/
theorem size_checks_fail_target (env : Env) (st : DState) (url name : String)
    (content : Bytes) (range : Option Nat) (e : Option String) (hI : Bool)
    (resp : GetResponse)
    (hget : env.get url range = .ok resp)
    (hstatus : ¬ (400 ≤ resp.status ∧ resp.status < 600))
    (hstream : resp.streamError = false) :
    (expectedTotal resp content.length = resp.contentLength.getD 0 + content.length) ∧
    (content.length + (writtenBody resp.chunks).length ≠ expectedTotal resp content.length →
      (doGet env st url name content range e hI).1.failed = st.failed ++ [url] ∧
      (doGet env st url name content range e hI).1.success = st.success ∧
      (doGet env st url name content range e hI).1.total_bytes = st.total_bytes) ∧
    (∀ dc, fsLookup (doGet env st url name content range e hI).1.fs name = some dc →
      dc.length ≠ expectedTotal resp content.length →
      (doGet env st url name content range e hI).1.failed = st.failed ++ [url]) := by
  have hnc : (match (if 0 < content.length then Mode.append else Mode.truncate) with
      | Mode.append => content | Mode.truncate => []) ++ writtenBody resp.chunks =
      content ++ writtenBody resp.chunks := by
    by_cases hpos : 0 < content.length
    · simp [hpos]
    · have : content = [] := List.length_eq_zero.mp (Nat.eq_zero_of_not_pos hpos)
      simp [hpos, this]
  have hmain : ∀ h : content.length + (writtenBody resp.chunks).length ≠
      expectedTotal resp content.length,
      (doGet env st url name content range e hI) =
        ({ st with fs := fsWrite st.fs name (content ++ writtenBody resp.chunks),
                   failed := st.failed ++ [url] },
         { headIssued := hI, getIssued := true, rangeHeader := range,
           mode := some (if 0 < content.length then Mode.append else Mode.truncate) }) := by
    intro h
    unfold doGet
    rw [hget]
    simp only [hstatus, if_false, hstream, Bool.false_eq_true, if_false, hnc]
    rw [if_pos h]
  refine ⟨rfl, fun h => by rw [hmain h]; exact ⟨rfl, rfl, rfl⟩, ?_⟩
  intro dc hdc hne
  by_cases h : content.length + (writtenBody resp.chunks).length =
      expectedTotal resp content.length
  · exfalso
    have hfs : (doGet env st url name content range e hI).1.fs =
        fsWrite st.fs name (content ++ writtenBody resp.chunks) := by
      unfold doGet
      rw [hget]
      simp only [hstatus, if_false, hstream, Bool.false_eq_true, if_false, hnc]
      rw [if_neg (by rw [h]; exact fun hx => hx rfl)]
      rw [fsLookup_fsWrite]
      simp only [Option.getD_some]
      rw [if_neg (by rw [List.length_append, h]; exact fun hx => hx rfl)]
      cases hv : verify_file_integrity env.md5 (content ++ writtenBody resp.chunks) e
      · rfl
      · rfl
    rw [hfs, fsLookup_fsWrite] at hdc
    have hdceq : dc = content ++ writtenBody resp.chunks := by
      injection hdc with h'
      exact h'.symm
    rw [hdceq, List.length_append, h] at hne
    exact hne rfl
  · rw [hmain h]

/-- Witness for the size checks: the response announces 5 bytes but
streams only 3 to a fresh file, so the target fails with the byte counter
untouched, and the 3-byte file on disk likewise disagrees with the total. -/
theorem size_checks_fail_target_witness :
    (doGet envW4 st0 "https://h/x.zip" "x.zip" [] none none false).1.failed =
      [] ++ ["https://h/x.zip"] ∧
    (doGet envW4 st0 "https://h/x.zip" "x.zip" [] none none false).1.success = [] ∧
    (doGet envW4 st0 "https://h/x.zip" "x.zip" [] none none false).1.total_bytes = 0 ∧
    (doGet envW4 st0 "https://h/x.zip" "x.zip" [] none none false).1.failed =
      [] ++ ["https://h/x.zip"] := by
  have h := size_checks_fail_target envW4 st0 "https://h/x.zip" "x.zip" [] none
    none false respW4 rfl (by decide) rfl
  refine ⟨(h.2.1 (by decide)).1, (h.2.1 (by decide)).2.1, (h.2.1 (by decide)).2.2, ?_⟩
  exact h.2.2 [1, 2, 3] rfl (by decide)

/-- C5: integrity verification is a no-op for an absent or empty expected
checksum; a supplied, differing checksum yields an error carrying the
expected and the actual digest, and a download whose bytes arrive with the
right size but the wrong digest is recorded as a failure — the URL goes to
the failure list, nothing is added to the byte counter, and the
correctly-sized bytes remain on disk while the batch goes on. -/
theorem checksum_mismatch_fails_target (md5f : Bytes → String) (c : Bytes)
    (ed : String) (env : Env) (st : DState) (url : String) (e2 : String)
    (resp : GetResponse)
    (hne : ed ≠ "") (hdiff : md5f c ≠ ed)
    (hlook : fsLookup st.fs (local_filename url) = none)
    (hget : env.get url none = .ok resp)
    (hstatus : ¬ (400 ≤ resp.status ∧ resp.status < 600))
    (hstream : resp.streamError = false)
    (hbody : (writtenBody resp.chunks).length = resp.contentLength.getD 0)
    (hne2 : e2 ≠ "")
    (hdiff2 : env.md5 (writtenBody resp.chunks) ≠ e2) :
    verify_file_integrity md5f c none = .ok () ∧
    verify_file_integrity md5f c (some "") = .ok () ∧
    verify_file_integrity md5f c (some ed) = .error (ed, md5f c) ∧
    (download_file env st url (some e2)).1.failed = st.failed ++ [url] ∧
    (download_file env st url (some e2)).1.success = st.success ∧
    (download_file env st url (some e2)).1.total_bytes = st.total_bytes ∧
    fsLookup (download_file env st url (some e2)).1.fs (local_filename url) =
      some (writtenBody resp.chunks) := by
  have hred : download_file env st url (some e2) =
      doGet env st url (local_filename url) [] none (some e2) false := by
    unfold download_file
    simp only []
    rw [hlook]
  have hverr : verify_file_integrity env.md5 ([] ++ writtenBody resp.chunks)
      (some e2) = .error (e2, env.md5 (writtenBody resp.chunks)) := by
    rw [List.nil_append]
    simp only [verify_file_integrity]
    rw [if_neg hne2, if_pos hdiff2]
  have hfail := doGet_verify_error env st url (local_filename url) [] none
    (some e2) false resp (e2, env.md5 (writtenBody resp.chunks)) hget hstatus
    hstream hbody hverr
  refine ⟨rfl, by simp [verify_file_integrity], ?_, ?_, ?_, ?_, ?_⟩
  · simp only [verify_file_integrity]
    rw [if_neg hne, if_pos hdiff]
  · rw [hred, hfail]
  · rw [hred, hfail]
  · rw [hred, hfail]
  · rw [hred, hfail]
    simp only [List.nil_append]
    exact fsLookup_fsWrite st.fs (local_filename url) _
end BulkDL

namespace BulkDL

/-- Witness for the checksum claim: a body of the right size whose digest
`"aaa"` differs from the expected `"bbb"`, so the target fails with the
bytes kept on disk and nothing added to the counter. -/
theorem checksum_mismatch_fails_target_witness :
    verify_file_integrity envW5.md5 [9] none = .ok () ∧
    verify_file_integrity envW5.md5 [9] (some "") = .ok () ∧
    verify_file_integrity envW5.md5 [9] (some "zzz") = .error ("zzz", "aaa") ∧
    (download_file envW5 st0 "https://h/x.zip" (some "bbb")).1.failed =
      [] ++ ["https://h/x.zip"] ∧
    (download_file envW5 st0 "https://h/x.zip" (some "bbb")).1.success = [] ∧
    (download_file envW5 st0 "https://h/x.zip" (some "bbb")).1.total_bytes = 0 ∧
    fsLookup (download_file envW5 st0 "https://h/x.zip" (some "bbb")).1.fs "x.zip" =
      some (writtenBody respW5.chunks) := by
  have h := checksum_mismatch_fails_target envW5.md5 [9] "zzz" envW5 st0
    "https://h/x.zip" "bbb" respW5 (by decide) (by decide) rfl rfl (by decide)
    rfl rfl (by decide) (by decide)
  exact h

end BulkDL
